import Mathlib

/-!
MyChat: the conversation session manager of `src/App.js`.

A shallow embedding of the `App` component: its React state, the ref
`prevSelectedId`, the two Firestore collections it reads and writes, its
handlers and its effects.  Every render that React commits is followed by the
effects whose dependencies changed, in declaration order; the embedding runs
them explicitly (`commitSelection`, `commitMessages`, `commitUser`).

Conventions of the embedding
* Firestore document ids and Firebase uids are non-empty strings, so the only
  falsy value of `selectedId`, `editingId` and `user` is `null` (`none`).
* A handler's awaited store calls succeed and are atomic with the state updates
  that follow them.  The two awaited reads whose completion the user can
  overtake (`getDoc` of a chat log, `fetch` of a completion) and `getDocs` of
  the character list are split into an issuing step and a settling step.
* `window.confirm` is answered with "OK" in the handlers that ask.
-/

namespace MyChat

/-! ## Data model -/

abbrev Uid := String
abbrev CharId := String

/-- The `role` of a message: the strings `"user"` and `"model"`. -/
inductive Role where
  | user
  | model
  deriving DecidableEq, Repr

/-- One element of `parts`: `{ text }`. -/
structure Part where
  text : String
  deriving DecidableEq, Repr

/-- A chat message `{ role, parts: [{ text }] }`. -/
structure Message where
  role : Role
  parts : List Part
  deriving DecidableEq, Repr

/-- The fields of a character as the forms write them; a field that the object
does not carry (`undefined`) is `none`. -/
structure CharacterFields where
  name : Option String
  gender : Option String
  manner : Option String
  personality : Option String
  background : Option String
  prompt : Option String
  deriving DecidableEq, Repr

/-- An element of `characters`: `{ ...docSnap.data(), id: docSnap.id }`. -/
structure Character extends CharacterFields where
  id : CharId
  deriving DecidableEq, Repr

/-- A document of the `chats` collection; `messages` is `none` when the
document carries no such field. -/
structure ChatDoc where
  messages : Option (List Message)
  deriving DecidableEq, Repr

/-- A Firestore collection below `users`: documents keyed by `(uid, docId)`. -/
abbrev Coll (α : Type) := List ((Uid × CharId) × α)

/-- The document stored under a key (`getDoc`), `none` when
`docSnap.exists()` is false. -/
def Coll.get {α : Type} (c : Coll α) (k : Uid × CharId) : Option α :=
  match c with
  | [] => none
  | e :: rest => if e.1 = k then some e.2 else Coll.get rest k

/-- Removal of the document under a key (`deleteDoc`). -/
def Coll.delete {α : Type} (c : Coll α) (k : Uid × CharId) : Coll α :=
  c.filter (fun e => decide (e.1 ≠ k))

/-- Overwrite of the document under a key (`setDoc` without merge). -/
def Coll.set {α : Type} (c : Coll α) (k : Uid × CharId) (v : α) : Coll α :=
  (k, v) :: Coll.delete c k

/-- All documents of one user's sub-collection with their ids (`getDocs`). -/
def Coll.docsOf {α : Type} (c : Coll α) (uid : Uid) : List (CharId × α) :=
  c.filterMap (fun e => if e.1.1 = uid then some (e.1.2, e.2) else none)

/-- The Firestore database `db`: the `characters` and `chats` collections. -/
structure Store where
  characters : Coll CharacterFields
  chats : Coll ChatDoc
  deriving DecidableEq, Repr

/-- A completion request in flight: the `contents` of the posted body and the
`nextMessages` the pending continuation of `sendMessage` closes over. -/
structure Request where
  contents : List Message
  nextMessages : List Message
  deriving DecidableEq, Repr

/-- The component state: the `useState` cells, the ref `prevSelectedId`, the
database, and the asynchronous calls that have been issued and not settled. -/
structure AppState where
  user : Option Uid
  characters : List Character
  selectedId : Option CharId
  newCharacter : CharacterFields
  editingId : Option CharId
  editCharacter : CharacterFields
  messages : List Message
  input : String
  loading : Bool
  prevSelectedId : Option CharId
  db : Store
  pendingLoads : List (Uid × CharId)
  pendingCharacterLoads : List Uid
  inFlight : List Request
  deriving DecidableEq, Repr

/-! ## Persona prompt builder -/

/-- JavaScript `x || d` on an optional string: `d` when `x` is `undefined` or
the empty string. -/
def jsOr (x : Option String) (d : String) : String :=
  match x with
  | none => d
  | some v => if v = "" then d else v

/-- Embedding of `buildSystemPrompt(character)`: the template literal. -/
def buildSystemPrompt (character : Character) : String :=
  "\n[캐릭터 정보]\n이름: " ++ jsOr character.name "이름 미설정"
    ++ "\n성별: "
    ++ (if character.gender = some "male" then "남성"
        else if character.gender = some "female" then "여성" else "미설정")
    ++ "\n말투: " ++ jsOr character.manner "설정 없음"
    ++ "\n성격: " ++ jsOr character.personality "설정 없음"
    ++ "\n배경: " ++ jsOr character.background "없음"
    ++ "\n\n지침: \n" ++ jsOr character.prompt "(특별 지침 없음)"
    ++ "\n\n너는 반드시 위 정보에 따라 캐릭터처럼 행동하고, 절대 캐릭터의 설정을 잊지 마라."
    ++ "\n플레이어의 역할극, 연애, 판타지 상황극에도 적극적으로 어울려야 한다.\n"

/-! ## Input validation -/

/-- Code points that `String.prototype.trim` strips: the ECMAScript
`WhiteSpace` and `LineTerminator` productions. -/
def isJsWhiteSpace (c : Char) : Bool :=
  let n := c.toNat
  n = 0x09 || n = 0x0A || n = 0x0B || n = 0x0C || n = 0x0D || n = 0x20
    || n = 0xA0 || n = 0x1680 || (0x2000 ≤ n && n ≤ 0x200A)
    || n = 0x2028 || n = 0x2029 || n = 0x202F || n = 0x205F || n = 0x3000
    || n = 0xFEFF

/-- Embedding of `str.trim()`. -/
def jsTrim (str : String) : String :=
  ⟨((str.data.dropWhile isJsWhiteSpace).reverse.dropWhile isJsWhiteSpace).reverse⟩

/-! ## Effects -/

/-- Effect 7 (`// 7. 대화 저장`), dependencies `[messages, user, selectedId]`:
the save guarded by the ref `prevSelectedId`. -/
def persistEffect (s : AppState) : AppState :=
  match s.user, s.selectedId with
  | some uid, some sel =>
    if s.messages.length = 0 then s
    else if s.prevSelectedId ≠ some sel then { s with prevSelectedId := some sel }
    else { s with db := { s.db with chats := s.db.chats.set (uid, sel) ⟨some s.messages⟩ } }
  | _, _ => s

/-- Effect 6 (`// 6. 캐릭터 선택시 대화 불러오기`), dependencies
`[user, selectedId]`: issues `getDoc` when a user and a selection exist.  Its
`setMessages([])` is queued and applied by the next render. -/
def loadEffect (s : AppState) : AppState :=
  match s.user, s.selectedId with
  | some uid, some sel => { s with pendingLoads := s.pendingLoads ++ [(uid, sel)] }
  | _, _ => s

/-- Effect 3 (`// 3. 캐릭터 불러오기`), dependencies `[user]`: issues `getDocs`
when a user exists.  Its `setCharacters([])` is queued. -/
def charactersEffect (s : AppState) : AppState :=
  match s.user with
  | some uid => { s with pendingCharacterLoads := s.pendingCharacterLoads ++ [uid] }
  | none => s

/-- A render in which only `messages` was replaced (every `setMessages` call
passes a fresh array): effect 7 runs. -/
def commitMessages (s : AppState) (msgs : List Message) : AppState :=
  persistEffect { s with messages := msgs }

/-- A render in which `selectedId` changed: effect 6 runs, then effect 7 with
the messages of that render, then the render of the queued `setMessages([])`. -/
def commitSelection (s : AppState) : AppState :=
  commitMessages (persistEffect (loadEffect s)) []

/-- A render in which `user` changed: effects 3, 6 and 7 run, then the render
of the queued `setCharacters([])` and `setMessages([])`. -/
def commitUser (s : AppState) : AppState :=
  let s1 := persistEffect (loadEffect (charactersEffect s))
  let s2 := if s1.user = none then { s1 with characters := [] } else s1
  commitMessages s2 []

/-- Embedding of `setSelectedId(v)`: React skips the render when the value is
unchanged. -/
def setSelectedId (v : Option CharId) (s : AppState) : AppState :=
  if s.selectedId = v then s else commitSelection { s with selectedId := v }

/-- Embedding of `auth.onAuthStateChanged(u => setUser(u))`. -/
def authStateChanged (u : Option Uid) (s : AppState) : AppState :=
  if s.user = u then s else commitUser { s with user := u }

/-- The settling of the `getDocs` call issued `i`-th among the pending ones:
`setCharacters(arr)`. -/
def fetchCharactersDone (i : Nat) (s : AppState) : AppState :=
  match s.pendingCharacterLoads.get? i with
  | none => s
  | some uid =>
    { s with
      pendingCharacterLoads := s.pendingCharacterLoads.eraseIdx i
      characters := (s.db.characters.docsOf uid).map
        (fun d => ({ toCharacterFields := d.2, id := d.1 } : Character)) }

/-- The settling of `fetchMessages` for the `getDoc` call issued `i`-th among
the pending ones: the snapshot is the document as it stands when the read
settles. -/
def fetchMessagesDone (i : Nat) (s : AppState) : AppState :=
  match s.pendingLoads.get? i with
  | none => s
  | some key =>
    let s1 := { s with pendingLoads := s.pendingLoads.eraseIdx i }
    match s.db.chats.get key with
    | some docSnap => commitMessages s1 (docSnap.messages.getD [])
    | none => commitMessages s1 []

/-! ## Handlers -/

/-- The `onClick` of a character button: `setSelectedId(c.id)`. -/
def selectCharacter (id : CharId) (s : AppState) : AppState :=
  setSelectedId (some id) s

/-- Embedding of `handleSaveCharacter`; `charId` is `Date.now().toString()`. -/
def handleSaveCharacter (charId : CharId) (s : AppState) : AppState :=
  match s.user, s.newCharacter.name with
  | some uid, some name =>
    if jsTrim name = "" then s
    else
      setSelectedId (some charId)
        { s with
          db := { s.db with
            characters := s.db.characters.set (uid, charId) s.newCharacter }
          characters := s.characters ++
            [({ toCharacterFields := s.newCharacter, id := charId } : Character)]
          newCharacter :=
            { name := some "", gender := none, manner := none,
              personality := some "", background := some "", prompt := some "" } }
  | _, _ => s

/-- Embedding of `handleEditCharacterSave`. -/
def handleEditCharacterSave (s : AppState) : AppState :=
  match s.user, s.editingId, s.editCharacter.name with
  | some uid, some editingId, some name =>
    if jsTrim name = "" then s
    else
      let s1 : AppState :=
        { s with
          db :=
            { characters := s.db.characters.set (uid, editingId) s.editCharacter
              chats := s.db.chats.set (uid, editingId) ⟨some []⟩ }
          characters := s.characters.map (fun c =>
            if c.id = editingId then
              ({ toCharacterFields := s.editCharacter, id := editingId } : Character)
            else c)
          editingId := none }
      if s.selectedId = some editingId then commitMessages s1 [] else s1
  | _, _, _ => s

/-- Embedding of `handleDeleteCharacter(id)`. -/
def handleDeleteCharacter (id : CharId) (s : AppState) : AppState :=
  match s.user with
  | none => s
  | some uid =>
    let s1 : AppState :=
      { s with
        db :=
          { characters := s.db.characters.delete (uid, id)
            chats := s.db.chats.delete (uid, id) }
        characters := s.characters.filter (fun c => decide (c.id ≠ id))
        editingId := if s.editingId = some id then none else s.editingId }
    if s.selectedId = some id then setSelectedId none s1 else s1

/-- The `onClick` of the reset button (`대화 초기화`): with no user or no
selection the path of `doc(...)` is invalid and the handler rejects before
any update. -/
def resetHistory (s : AppState) : AppState :=
  match s.user, s.selectedId with
  | some uid, some sel =>
    commitMessages
      { s with db := { s.db with chats := s.db.chats.set (uid, sel) ⟨some []⟩ } } []
  | _, _ => s

/-! ## Completion requests -/

/-- The user turn `{ role: "user", parts: [{ text }] }`. -/
def userTurn (text : String) : Message := ⟨Role.user, [⟨text⟩]⟩

/-- The model turn `{ role: "model", parts: [{ text }] }`. -/
def modelTurn (text : String) : Message := ⟨Role.model, [⟨text⟩]⟩

/-- The `systemPromptMsg` of `sendMessage`. -/
def systemPromptMsg (selectedCharacter : Character) : Message :=
  ⟨Role.user, [⟨buildSystemPrompt selectedCharacter⟩]⟩

/-- Embedding of `sendMessage` up to its `await fetch(...)`: the guard, the two
branches that build `sendMessages`, `setMessages(nextMessages)` and
`setLoading(true)` in one render, and the issued request. -/
def sendMessage (s : AppState) : AppState :=
  match s.characters.find? (fun c => decide (some c.id = s.selectedId)) with
  | none => s
  | some selectedCharacter =>
    if jsTrim s.input = "" then s
    else
      -- the pair `(baseMessages, sendMessages)` after the `if`/`else`
      let built : List Message × List Message :=
        if s.messages.length = 0 then
          ([], [systemPromptMsg selectedCharacter, userTurn s.input])
        else
          (s.messages,
            [systemPromptMsg selectedCharacter] ++ s.messages ++ [userTurn s.input])
      let nextMessages := built.1 ++ [userTurn s.input]
      commitMessages
        { s with
          loading := true
          inFlight := s.inFlight ++ [⟨built.2, nextMessages⟩] }
        nextMessages

/-- An element of `content.parts` in the response body. -/
structure ReplyPart where
  text : Option String
  deriving DecidableEq, Repr

/-- The `content` of a candidate: `parts` and the legacy `text`. -/
structure Content where
  parts : Option (List ReplyPart)
  text : Option String
  deriving DecidableEq, Repr

/-- An element of `candidates`. -/
structure Candidate where
  content : Option Content
  deriving DecidableEq, Repr

/-- The parsed response body as far as `sendMessage` reads it. -/
structure ResponseData where
  candidates : Option (List Candidate)
  deriving DecidableEq, Repr

/-- The ways `await fetch(...)` followed by `await res.json()` can end: the
fetch rejects, the body is not JSON, or the body parses (`json none` is the
JSON value `null`, on which `data.candidates` throws). -/
inductive FetchOutcome where
  | rejected
  | invalidJson
  | json (data : Option ResponseData)
  deriving DecidableEq, Repr

/-- The chain `data.candidates?.[0]?.content`. -/
def firstContent (data : ResponseData) : Option Content :=
  (data.candidates.bind List.head?).bind Candidate.content

/-- The chain `data.candidates?.[0]?.content?.parts?.[0]?.text`. -/
def partsText (data : ResponseData) : Option String :=
  (((firstContent data).bind Content.parts).bind List.head?).bind ReplyPart.text

/-- The chain `data.candidates?.[0]?.content?.text`. -/
def contentText (data : ResponseData) : Option String :=
  (firstContent data).bind Content.text

/-- The `reply` of the `try` block: the two chains joined by `||` with the
literal that ends them. -/
def extractReply (data : ResponseData) : String :=
  jsOr (partsText data) (jsOr (contentText data) "AI 응답 오류!")

/-- The text of the model turn that `sendMessage` appends for an outcome: the
`reply` of the `try` block, or the literal of the `catch` block. -/
def replyText (o : FetchOutcome) : String :=
  match o with
  | FetchOutcome.rejected => "죄송합니다. 오류가 발생했습니다."
  | FetchOutcome.invalidJson => "죄송합니다. 오류가 발생했습니다."
  | FetchOutcome.json none => "죄송합니다. 오류가 발생했습니다."
  | FetchOutcome.json (some data) => extractReply data

/-- The continuation of `sendMessage` after its awaits, for the request issued
`i`-th among those in flight: `setMessages([...nextMessages, reply])` in the
`try` or the `catch` block, then `setInput("")` and `setLoading(false)`. -/
def completionSettles (i : Nat) (o : FetchOutcome) (s : AppState) : AppState :=
  match s.inFlight.get? i with
  | none => s
  | some req =>
    let s1 := commitMessages { s with inFlight := s.inFlight.eraseIdx i }
      (req.nextMessages ++ [modelTurn (replyText o)])
    { s1 with input := "", loading := false }

/-- The chat form is rendered for a signed-in user with a selection, and its
textarea and submit button carry `disabled={loading}`. -/
def chatFormEnabled (s : AppState) : Bool :=
  s.user.isSome && s.selectedId.isSome && !s.loading

/-- A submit of the chat form: `onSubmit={sendMessage}`, reachable only
through the enabled button. -/
def chatFormSubmit (s : AppState) : AppState :=
  if chatFormEnabled s then sendMessage s else s

/-- Typing in the chat textarea: `setInput(e.target.value)`. -/
def typeInput (text : String) (s : AppState) : AppState :=
  if chatFormEnabled s then { s with input := text } else s

/-! ## The component as a transition system -/

/-- The events the component reacts to. -/
inductive Op where
  | authStateChanged (u : Option Uid)
  | fetchCharactersDone (i : Nat)
  | selectCharacter (id : CharId)
  | fetchMessagesDone (i : Nat)
  | typeInput (text : String)
  | submit
  | completionSettles (i : Nat) (o : FetchOutcome)
  | resetHistory
  | handleDeleteCharacter (id : CharId)
  | handleSaveCharacter (charId : CharId)
  | setNewCharacter (c : CharacterFields)
  | startEdit (id : CharId) (c : CharacterFields)
  | setEditCharacter (c : CharacterFields)
  | cancelEdit
  | handleEditCharacterSave
  deriving DecidableEq, Repr

/-- One reaction of the component. -/
def step (op : Op) (s : AppState) : AppState :=
  match op with
  | Op.authStateChanged u => authStateChanged u s
  | Op.fetchCharactersDone i => fetchCharactersDone i s
  | Op.selectCharacter id => selectCharacter id s
  | Op.fetchMessagesDone i => fetchMessagesDone i s
  | Op.typeInput text => typeInput text s
  | Op.submit => chatFormSubmit s
  | Op.completionSettles i o => completionSettles i o s
  | Op.resetHistory => resetHistory s
  | Op.handleDeleteCharacter id => handleDeleteCharacter id s
  | Op.handleSaveCharacter charId => handleSaveCharacter charId s
  | Op.setNewCharacter c => { s with newCharacter := c }
  | Op.startEdit id c => { s with editingId := some id, editCharacter := c }
  | Op.setEditCharacter c => { s with editCharacter := c }
  | Op.cancelEdit => { s with editingId := none }
  | Op.handleEditCharacterSave => handleEditCharacterSave s

/-- The state after the first render over a database `db`. -/
def initial (db : Store) : AppState :=
  { user := none, characters := [], selectedId := none
    newCharacter :=
      { name := some "", gender := none, manner := none,
        personality := some "", background := some "", prompt := some "" }
    editingId := none
    editCharacter :=
      { name := some "", gender := none, manner := none,
        personality := some "", background := some "", prompt := some "" }
    messages := [], input := "", loading := false, prevSelectedId := none
    db := db, pendingLoads := [], pendingCharacterLoads := [], inFlight := [] }

/-- The states the component can be in: the closure of the first render under
the reactions. -/
inductive Reachable : AppState → Prop where
  | init (db : Store) : Reachable (initial db)
  | next (op : Op) (s : AppState) : Reachable s → Reachable (step op s)

/-- The state after a sequence of events. -/
def run (ops : List Op) (s : AppState) : AppState :=
  ops.foldl (fun acc op => step op acc) s

/-- The conversation log stored for a user and a character, as `fetchMessages`
reads it: empty when the document or its `messages` field is missing. -/
def storedLog (s : AppState) (uid : Uid) (id : CharId) : List Message :=
  match s.db.chats.get (uid, id) with
  | some docSnap => docSnap.messages.getD []
  | none => []

/-! ## Specification-side definitions -/

/-- Specification of a free-text field of the persona prompt: the field
verbatim when present and non-empty, its placeholder otherwise. -/
def specShown (field : Option String) (placeholder : String) : String :=
  match field with
  | none => placeholder
  | some "" => placeholder
  | some v => v

/-- Specification of the gender line: the male label for `"male"`, the female
label for `"female"`, the unset placeholder for anything else. -/
def specGenderLabel (gender : Option String) : String :=
  match gender with
  | some "male" => "남성"
  | some "female" => "여성"
  | _ => "미설정"

/-- Specification of the persona prompt: the fixed template around the six
rendered fields. -/
def specPersonaPrompt (c : CharacterFields) : String :=
  String.join
    [ "\n[캐릭터 정보]\n이름: ", specShown c.name "이름 미설정",
      "\n성별: ", specGenderLabel c.gender,
      "\n말투: ", specShown c.manner "설정 없음",
      "\n성격: ", specShown c.personality "설정 없음",
      "\n배경: ", specShown c.background "없음",
      "\n\n지침: \n", specShown c.prompt "(특별 지침 없음)",
      "\n\n너는 반드시 위 정보에 따라 캐릭터처럼 행동하고, 절대 캐릭터의 설정을 잊지 마라.",
      "\n플레이어의 역할극, 연애, 판타지 상황극에도 적극적으로 어울려야 한다.\n" ]

/-! ## Observations, invariants and a sample session -/

/-- The requests in flight and the loading flag, the part of the state that
only `sendMessage` and its continuation touch. -/
def sameRequests (s t : AppState) : Prop :=
  t.inFlight = s.inFlight ∧ t.loading = s.loading

/-- The mutual-exclusion invariant: at most one completion request is in
flight, and none while the loading flag is down. -/
def oneRequest (s : AppState) : Prop :=
  s.inFlight.length ≤ 1 ∧ (s.loading = false → s.inFlight = [])

/-- The persona turn at the head of the last issued request, if any. -/
def issuedPersonaTurn (s : AppState) : Option Message :=
  s.inFlight.getLast?.bind (fun req => req.contents.head?)

/-- A character record with a name and a gender only. -/
def mina : CharacterFields :=
  { name := some "Mina", gender := some "female", manner := none,
    personality := none, background := none, prompt := none }

/-- A second character record. -/
def theo : CharacterFields :=
  { name := some "Theo", gender := some "male", manner := some "curt",
    personality := none, background := none, prompt := some "Stay brief." }

/-- A database in which user `u` owns characters `A` and `B`, and `A` has a
stored conversation of two messages. -/
def sampleDb : Store :=
  { characters := [(("u", "A"), mina), (("u", "B"), theo)]
    chats := [(("u", "A"), ⟨some [userTurn "hi", modelTurn "hello"]⟩)] }

/-- User `u` signed in, the character list fetched, `A` selected and its log
loaded. -/
def sessionA : AppState :=
  run [Op.authStateChanged (some "u"), Op.fetchCharactersDone 0,
    Op.selectCharacter "A", Op.fetchMessagesDone 0] (initial sampleDb)

/-- The sample session with `B` selected instead, whose log is empty. -/
def sessionB : AppState :=
  run [Op.authStateChanged (some "u"), Op.fetchCharactersDone 0,
    Op.selectCharacter "B", Op.fetchMessagesDone 0] (initial sampleDb)

/-- Every document of `c2` is the document of `c1` under the same key or holds
a non-empty log: the collection changed by saves of non-empty logs only. -/
def onlySaves (c1 c2 : Coll ChatDoc) : Prop :=
  ∀ k, c2.get k = c1.get k ∨ ∃ l : List Message, l ≠ [] ∧ c2.get k = some ⟨some l⟩

/-- A response body with one candidate whose first part carries `text`. -/
def replyWith (text : String) : ResponseData :=
  ⟨some [⟨some ⟨some [⟨some text⟩], none⟩⟩]⟩

/-- A text that `||` passes over: `undefined` or the empty string. -/
def textMissing (x : Option String) : Prop := x = none ∨ x = some ""

/-- The first candidate of a response carries no text: neither
`content.parts[0].text` nor `content.text` is a non-empty string.  A response
without `candidates`, or with an empty list, is an instance. -/
def noCandidateText (data : ResponseData) : Prop :=
  textMissing (partsText data) ∧ textMissing (contentText data)

/-- The sample session after: a message typed and sent to `A`, `B` selected
while the request is in flight, the load of `B` settled, and then the reply
`"yo"` arrived. -/
def staleReply : AppState :=
  run [Op.typeInput "hey", Op.submit, Op.selectCharacter "B", Op.fetchMessagesDone 0,
    Op.completionSettles 0 (FetchOutcome.json (some (replyWith "yo")))] sessionA

/-! ## Lemmas on collections -/

theorem Coll.get_delete_same {α : Type} (c : Coll α) (k : Uid × CharId) :
    Coll.get (Coll.delete c k) k = none := by
  induction c with
  | nil => rfl
  | cons e rest ih =>
    by_cases h : e.1 = k
    · simpa [Coll.delete, List.filter, h] using ih
    · simpa [Coll.delete, List.filter, h, Coll.get] using ih

theorem Coll.get_delete_ne {α : Type} (c : Coll α) (k j : Uid × CharId) (hne : j ≠ k) :
    Coll.get (Coll.delete c k) j = Coll.get c j := by
  induction c with
  | nil => rfl
  | cons e rest ih =>
    have hkj : ¬ k = j := fun h => hne h.symm
    by_cases h : e.1 = k
    · have hj : ¬ e.1 = j := fun hej => hne (hej ▸ h)
      simpa [Coll.delete, List.filter, h, Coll.get, hj, hkj] using ih
    · by_cases hj : e.1 = j
      · have hjk : ¬ j = k := hne
        simp [Coll.delete, List.filter, Coll.get, hj, hjk]
      · simpa [Coll.delete, List.filter, h, Coll.get, hj] using ih

theorem Coll.get_set_same {α : Type} (c : Coll α) (k : Uid × CharId) (v : α) :
    Coll.get (Coll.set c k v) k = some v := by
  simp [Coll.set, Coll.get]

theorem Coll.get_set_ne {α : Type} (c : Coll α) (k j : Uid × CharId) (v : α)
    (hne : j ≠ k) : Coll.get (Coll.set c k v) j = Coll.get c j := by
  have hkj : ¬ k = j := fun h => hne h.symm
  simp [Coll.set, Coll.get, hkj, Coll.get_delete_ne c k j hne]

/-! ## Lemmas on the persistence effect -/

@[simp] theorem persistEffect_messages (s : AppState) :
    (persistEffect s).messages = s.messages := by
  unfold persistEffect; split <;> [split_ifs; skip] <;> rfl

@[simp] theorem persistEffect_user (s : AppState) :
    (persistEffect s).user = s.user := by
  unfold persistEffect; split <;> [split_ifs; skip] <;> rfl

@[simp] theorem persistEffect_selectedId (s : AppState) :
    (persistEffect s).selectedId = s.selectedId := by
  unfold persistEffect; split <;> [split_ifs; skip] <;> rfl

@[simp] theorem persistEffect_loading (s : AppState) :
    (persistEffect s).loading = s.loading := by
  unfold persistEffect; split <;> [split_ifs; skip] <;> rfl

@[simp] theorem persistEffect_input (s : AppState) :
    (persistEffect s).input = s.input := by
  unfold persistEffect; split <;> [split_ifs; skip] <;> rfl

@[simp] theorem persistEffect_inFlight (s : AppState) :
    (persistEffect s).inFlight = s.inFlight := by
  unfold persistEffect; split <;> [split_ifs; skip] <;> rfl

@[simp] theorem persistEffect_pendingLoads (s : AppState) :
    (persistEffect s).pendingLoads = s.pendingLoads := by
  unfold persistEffect; split <;> [split_ifs; skip] <;> rfl

@[simp] theorem persistEffect_characters (s : AppState) :
    (persistEffect s).characters = s.characters := by
  unfold persistEffect; split <;> [split_ifs; skip] <;> rfl

@[simp] theorem persistEffect_db_characters (s : AppState) :
    (persistEffect s).db.characters = s.db.characters := by
  unfold persistEffect; split <;> [split_ifs; skip] <;> rfl

/-- With an empty log the persistence effect returns at its first guard. -/
theorem persistEffect_nil (s : AppState) (h : s.messages = []) :
    persistEffect s = s := by
  unfold persistEffect; split <;> simp [h]

theorem commitMessages_nil (s : AppState) :
    commitMessages s [] = { s with messages := [] } :=
  persistEffect_nil _ rfl

@[simp] theorem loadEffect_inFlight (s : AppState) :
    (loadEffect s).inFlight = s.inFlight := by
  unfold loadEffect; split <;> rfl

@[simp] theorem loadEffect_loading (s : AppState) :
    (loadEffect s).loading = s.loading := by
  unfold loadEffect; split <;> rfl

@[simp] theorem loadEffect_db (s : AppState) : (loadEffect s).db = s.db := by
  unfold loadEffect; split <;> rfl

@[simp] theorem loadEffect_messages (s : AppState) :
    (loadEffect s).messages = s.messages := by
  unfold loadEffect; split <;> rfl

@[simp] theorem loadEffect_user (s : AppState) : (loadEffect s).user = s.user := by
  unfold loadEffect; split <;> rfl

@[simp] theorem loadEffect_selectedId (s : AppState) :
    (loadEffect s).selectedId = s.selectedId := by
  unfold loadEffect; split <;> rfl

@[simp] theorem charactersEffect_inFlight (s : AppState) :
    (charactersEffect s).inFlight = s.inFlight := by
  unfold charactersEffect; split <;> rfl

@[simp] theorem charactersEffect_loading (s : AppState) :
    (charactersEffect s).loading = s.loading := by
  unfold charactersEffect; split <;> rfl

@[simp] theorem charactersEffect_db (s : AppState) :
    (charactersEffect s).db = s.db := by
  unfold charactersEffect; split <;> rfl

theorem commitMessages_sameRequests (s : AppState) (msgs : List Message) :
    sameRequests s (commitMessages s msgs) := by
  simp [sameRequests, commitMessages]

theorem commitSelection_sameRequests (s : AppState) :
    sameRequests s (commitSelection s) := by
  simp [sameRequests, commitSelection, commitMessages]

theorem setSelectedId_sameRequests (v : Option CharId) (s : AppState) :
    sameRequests s (setSelectedId v s) := by
  unfold setSelectedId
  split
  · exact ⟨rfl, rfl⟩
  · exact commitSelection_sameRequests _

theorem authStateChanged_sameRequests (u : Option Uid) (s : AppState) :
    sameRequests s (authStateChanged u s) := by
  unfold authStateChanged commitUser
  split
  · exact ⟨rfl, rfl⟩
  · simp only [sameRequests, commitMessages]
    split <;> simp

theorem fetchCharactersDone_sameRequests (i : Nat) (s : AppState) :
    sameRequests s (fetchCharactersDone i s) := by
  unfold fetchCharactersDone
  split <;> exact ⟨rfl, rfl⟩

theorem fetchMessagesDone_sameRequests (i : Nat) (s : AppState) :
    sameRequests s (fetchMessagesDone i s) := by
  unfold fetchMessagesDone
  split
  · exact ⟨rfl, rfl⟩
  · split <;> simp [sameRequests, commitMessages]

theorem typeInput_sameRequests (text : String) (s : AppState) :
    sameRequests s (typeInput text s) := by
  unfold typeInput
  split <;> exact ⟨rfl, rfl⟩

theorem resetHistory_sameRequests (s : AppState) :
    sameRequests s (resetHistory s) := by
  unfold resetHistory
  split
  · simp [sameRequests, commitMessages]
  · exact ⟨rfl, rfl⟩

theorem handleDeleteCharacter_sameRequests (id : CharId) (s : AppState) :
    sameRequests s (handleDeleteCharacter id s) := by
  unfold handleDeleteCharacter
  split
  · exact ⟨rfl, rfl⟩
  · dsimp only
    by_cases hsel : s.selectedId = some id
    · rw [if_pos hsel]; exact setSelectedId_sameRequests none _
    · rw [if_neg hsel]; exact ⟨rfl, rfl⟩

theorem handleSaveCharacter_sameRequests (charId : CharId) (s : AppState) :
    sameRequests s (handleSaveCharacter charId s) := by
  unfold handleSaveCharacter
  split
  · split
    · exact ⟨rfl, rfl⟩
    · exact setSelectedId_sameRequests _ _
  · exact ⟨rfl, rfl⟩

theorem handleEditCharacterSave_sameRequests (s : AppState) :
    sameRequests s (handleEditCharacterSave s) := by
  unfold handleEditCharacterSave
  split
  · split
    · exact ⟨rfl, rfl⟩
    · split
      · simp [sameRequests, commitMessages]
      · exact ⟨rfl, rfl⟩
  · exact ⟨rfl, rfl⟩

theorem oneRequest_of_sameRequests (s t : AppState) (h : sameRequests s t)
    (hs : oneRequest s) : oneRequest t := by
  unfold oneRequest at hs ⊢
  rw [h.1, h.2]
  exact hs

theorem find?_selected_some (s : AppState) (c : Character)
    (h : s.characters.find? (fun c => decide (some c.id = s.selectedId)) = some c) :
    c ∈ s.characters ∧ some c.id = s.selectedId := by
  have h1 := List.find?_some h
  have h2 := List.mem_of_find?_eq_some h
  exact ⟨h2, by simpa using h1⟩

/-- What `sendMessage` does once its guard has passed. -/
theorem sendMessage_pass (s : AppState) (c : Character)
    (hsel : s.characters.find? (fun c => decide (some c.id = s.selectedId)) = some c)
    (hin : jsTrim s.input ≠ "") :
    sendMessage s =
      commitMessages
        { s with
          loading := true
          inFlight := s.inFlight ++
            [⟨[systemPromptMsg c] ++ s.messages ++ [userTurn s.input],
              s.messages ++ [userTurn s.input]⟩] }
        (s.messages ++ [userTurn s.input]) := by
  unfold sendMessage
  simp only [hsel, hin, if_false]
  by_cases h0 : s.messages.length = 0
  · have hnil : s.messages = [] := List.length_eq_zero.mp h0
    simp [hnil]
  · simp [h0]

theorem chatFormSubmit_oneRequest (s : AppState) (hs : oneRequest s) :
    oneRequest (chatFormSubmit s) := by
  unfold chatFormSubmit
  split
  · rename_i hen
    have hl : s.loading = false := by
      simp [chatFormEnabled] at hen
      exact hen.2
    have hnil : s.inFlight = [] := hs.2 hl
    cases hfind : s.characters.find? (fun c => decide (some c.id = s.selectedId)) with
    | none =>
      have : sendMessage s = s := by unfold sendMessage; simp [hfind]
      rw [this]; exact hs
    | some c =>
      by_cases hin : jsTrim s.input = ""
      · have : sendMessage s = s := by unfold sendMessage; simp [hfind, hin]
        rw [this]; exact hs
      · rw [sendMessage_pass s c hfind hin]
        simp [oneRequest, commitMessages, hnil]
  · exact hs

theorem completionSettles_oneRequest (i : Nat) (o : FetchOutcome) (s : AppState)
    (hs : oneRequest s) : oneRequest (completionSettles i o s) := by
  unfold completionSettles
  split
  · exact hs
  · rename_i req hreq
    have hlen := hs.1
    have hnil : s.inFlight.eraseIdx i = [] := by
      cases hl : s.inFlight with
      | nil => simp
      | cons a rest =>
        have hrest : rest = [] := by
          rw [hl] at hlen
          simpa using hlen
        subst hrest
        cases i with
        | zero => rfl
        | succ j => rw [hl] at hreq; simp at hreq
    simp [oneRequest, commitMessages, hnil]

theorem step_oneRequest (op : Op) (s : AppState) (hs : oneRequest s) :
    oneRequest (step op s) := by
  cases op with
  | authStateChanged u =>
    exact oneRequest_of_sameRequests _ _ (authStateChanged_sameRequests u s) hs
  | fetchCharactersDone i =>
    exact oneRequest_of_sameRequests _ _ (fetchCharactersDone_sameRequests i s) hs
  | selectCharacter id =>
    exact oneRequest_of_sameRequests _ _ (setSelectedId_sameRequests _ s) hs
  | fetchMessagesDone i =>
    exact oneRequest_of_sameRequests _ _ (fetchMessagesDone_sameRequests i s) hs
  | typeInput text =>
    exact oneRequest_of_sameRequests _ _ (typeInput_sameRequests text s) hs
  | submit => exact chatFormSubmit_oneRequest s hs
  | completionSettles i o => exact completionSettles_oneRequest i o s hs
  | resetHistory =>
    exact oneRequest_of_sameRequests _ _ (resetHistory_sameRequests s) hs
  | handleDeleteCharacter id =>
    exact oneRequest_of_sameRequests _ _ (handleDeleteCharacter_sameRequests id s) hs
  | handleSaveCharacter charId =>
    exact oneRequest_of_sameRequests _ _ (handleSaveCharacter_sameRequests charId s) hs
  | setNewCharacter c => exact hs
  | startEdit id c => exact hs
  | setEditCharacter c => exact hs
  | cancelEdit => exact hs
  | handleEditCharacterSave =>
    exact oneRequest_of_sameRequests _ _ (handleEditCharacterSave_sameRequests s) hs

theorem reachable_oneRequest (s : AppState) (h : Reachable s) : oneRequest s := by
  induction h with
  | init db => exact ⟨by simp [initial], fun _ => rfl⟩
  | next op s _ ih => exact step_oneRequest op s ih

theorem reachable_run (ops : List Op) (s : AppState) (h : Reachable s) :
    Reachable (run ops s) := by
  induction ops generalizing s with
  | nil => exact h
  | cons op rest ih => exact ih (step op s) (Reachable.next op s h)

/-! ## Persona prompt builder: refinement of its specification -/

theorem jsOr_eq_specShown (x : Option String) (d : String) :
    jsOr x d = specShown x d := by
  cases x with
  | none => rfl
  | some v =>
    by_cases h : v = ""
    · subst h; rfl
    · simp only [jsOr, h, if_false]
      unfold specShown
      split
      · simp_all
      · simp_all
      · simp_all

theorem genderLabel_eq_spec (g : Option String) :
    (if g = some "male" then "남성" else if g = some "female" then "여성" else "미설정")
      = specGenderLabel g := by
  by_cases hm : g = some "male"
  · subst hm; rfl
  · by_cases hf : g = some "female"
    · subst hf; rfl
    · simp only [hm, hf, if_false]
      unfold specGenderLabel
      split
      · simp_all
      · simp_all
      · rfl

/-- C10: `buildSystemPrompt` is a total function of the character's fields
alone.  For every character record it returns the fixed template in which
name, manner, personality, background and prompt appear verbatim when present
and non-empty and as their placeholder otherwise, and gender appears as the
male label for "male", the female label for "female" and the unset placeholder
for anything else; records with equal fields give equal strings; and the
persona turn `sendMessage` puts at the head of a request is the same whatever
the conversation log is. -/
theorem buildSystemPrompt_refines_spec (c : Character) :
    buildSystemPrompt c = specPersonaPrompt c.toCharacterFields
    ∧ (∀ c2 : Character, c2.toCharacterFields = c.toCharacterFields →
        buildSystemPrompt c2 = buildSystemPrompt c)
    ∧ (∀ (s : AppState) (log : List Message),
        issuedPersonaTurn (sendMessage { s with messages := log, inFlight := [] })
          = issuedPersonaTurn (sendMessage { s with inFlight := [] })) := by
  have hspec : ∀ d : Character, buildSystemPrompt d = specPersonaPrompt d.toCharacterFields := by
    intro d
    unfold buildSystemPrompt specPersonaPrompt
    simp only [jsOr_eq_specShown, genderLabel_eq_spec, String.join, List.foldl]
    simp [String.append_assoc]
  refine ⟨hspec c, ?_, ?_⟩
  · intro c2 h
    rw [hspec c2, hspec c, h]
  · intro s log
    unfold sendMessage issuedPersonaTurn
    cases hfind : s.characters.find? (fun c => decide (some c.id = s.selectedId)) with
    | none => simp [hfind]
    | some sc =>
      by_cases hin : jsTrim s.input = ""
      · simp [hfind, hin]
      · by_cases h1 : log.length = 0 <;> by_cases h2 : s.messages.length = 0 <;>
          simp [hfind, hin, h1, h2, commitMessages]

/-- Witness for C10: a character with a name and a gender and nothing else. -/
theorem buildSystemPrompt_refines_spec_witness :
    buildSystemPrompt
        { name := some "Mina", gender := some "female", manner := none,
          personality := some "", background := none, prompt := none, id := "1" }
      = "\n[캐릭터 정보]\n이름: Mina\n성별: 여성\n말투: 설정 없음\n성격: 설정 없음\n배경: 없음\n\n지침: \n(특별 지침 없음)\n\n너는 반드시 위 정보에 따라 캐릭터처럼 행동하고, 절대 캐릭터의 설정을 잊지 마라.\n플레이어의 역할극, 연애, 판타지 상황극에도 적극적으로 어울려야 한다.\n" := by
  rw [(buildSystemPrompt_refines_spec _).1]
  decide

/-! ## Request payload and the guard of `sendMessage` -/

/-- C4: once the guard of `sendMessage` has passed, for every visible log
(empty or not) the request it issues carries as `contents` the persona turn of
the selected character, then the visible log, then the new user turn; the new
visible log is the old one followed by the user turn; so the payload is the
persona turn prepended to the new visible log, in both branches. -/
theorem sendMessage_payload_shape (s : AppState) (c : Character)
    (hsel : s.characters.find? (fun c => decide (some c.id = s.selectedId)) = some c)
    (hin : jsTrim s.input ≠ "") :
    ∃ req : Request,
      (sendMessage s).inFlight = s.inFlight ++ [req]
      ∧ req.contents = [systemPromptMsg c] ++ s.messages ++ [userTurn s.input]
      ∧ (sendMessage s).messages = s.messages ++ [userTurn s.input]
      ∧ req.contents = systemPromptMsg c :: (sendMessage s).messages := by
  refine ⟨⟨[systemPromptMsg c] ++ s.messages ++ [userTurn s.input],
    s.messages ++ [userTurn s.input]⟩, ?_, rfl, ?_, ?_⟩
  · rw [sendMessage_pass s c hsel hin]; simp [commitMessages]
  · rw [sendMessage_pass s c hsel hin]; simp [commitMessages]
  · rw [sendMessage_pass s c hsel hin]; simp [commitMessages]

/-- Witness for C4: a message typed into the sample session, whose log holds
two messages. -/
theorem sendMessage_payload_shape_witness :
    ∃ req : Request,
      (sendMessage (typeInput "hey" sessionA)).inFlight = [req]
      ∧ req.contents =
          [systemPromptMsg ⟨mina, "A"⟩, userTurn "hi", modelTurn "hello", userTurn "hey"]
      ∧ (sendMessage (typeInput "hey" sessionA)).messages =
          [userTurn "hi", modelTurn "hello", userTurn "hey"]
      ∧ req.contents =
          systemPromptMsg ⟨mina, "A"⟩ :: (sendMessage (typeInput "hey" sessionA)).messages :=
  sendMessage_payload_shape (typeInput "hey" sessionA) ⟨mina, "A"⟩ (by decide) (by decide)

/-- C5: for a signed-in user, a submit of the chat form appends the user turn,
raises the loading flag and issues one completion request when the loading
flag is down, the input has a non-empty trim and the selected character is in
the character list; in every other state it leaves the whole state, the store
included, as it was; and in every reachable state at most one request is in
flight, none while the loading flag is down. -/
theorem chatFormSubmit_guard (s : AppState) (hu : s.user ≠ none) :
    ((s.loading = false ∧ jsTrim s.input ≠ ""
        ∧ ∃ c ∈ s.characters, some c.id = s.selectedId) →
      (chatFormSubmit s).messages = s.messages ++ [userTurn s.input]
      ∧ (chatFormSubmit s).loading = true
      ∧ ∃ req, (chatFormSubmit s).inFlight = s.inFlight ++ [req])
    ∧ (¬ (s.loading = false ∧ jsTrim s.input ≠ ""
        ∧ ∃ c ∈ s.characters, some c.id = s.selectedId) →
      chatFormSubmit s = s)
    ∧ (chatFormSubmit s ≠ s ↔
        (s.loading = false ∧ jsTrim s.input ≠ ""
          ∧ ∃ c ∈ s.characters, some c.id = s.selectedId))
    ∧ (Reachable s → s.inFlight.length ≤ 1 ∧ (s.loading = false → s.inFlight = [])) := by
  have hpass : (s.loading = false ∧ jsTrim s.input ≠ ""
        ∧ ∃ c ∈ s.characters, some c.id = s.selectedId) →
      (chatFormSubmit s).messages = s.messages ++ [userTurn s.input]
      ∧ (chatFormSubmit s).loading = true
      ∧ ∃ req, (chatFormSubmit s).inFlight = s.inFlight ++ [req] := by
    rintro ⟨hl, hin, c, hc, hid⟩
    have hen : chatFormEnabled s = true := by
      cases hus : s.user with
      | none => exact absurd hus hu
      | some uid => simp [chatFormEnabled, hus, ← hid, hl]
    cases hfind : s.characters.find? (fun c => decide (some c.id = s.selectedId)) with
    | none =>
      rw [List.find?_eq_none] at hfind
      exact absurd (by simpa using hid) (hfind c hc)
    | some d =>
      unfold chatFormSubmit
      rw [if_pos hen, sendMessage_pass s d hfind hin]
      simp [commitMessages]
  have hskip : ¬ (s.loading = false ∧ jsTrim s.input ≠ ""
        ∧ ∃ c ∈ s.characters, some c.id = s.selectedId) → chatFormSubmit s = s := by
    intro hn
    unfold chatFormSubmit
    by_cases hen : chatFormEnabled s = true
    · rw [if_pos hen]
      have hl : s.loading = false := by
        simp [chatFormEnabled] at hen
        exact hen.2
      cases hfind : s.characters.find? (fun c => decide (some c.id = s.selectedId)) with
      | none => unfold sendMessage; simp [hfind]
      | some d =>
        have hd := find?_selected_some s d hfind
        by_cases hin : jsTrim s.input = ""
        · unfold sendMessage; simp [hfind, hin]
        · exact absurd ⟨hl, hin, d, hd.1, hd.2⟩ hn
    · rw [if_neg hen]
  refine ⟨hpass, hskip, ⟨?_, ?_⟩, ?_⟩
  · intro hne
    by_contra hn
    exact hne (hskip hn)
  · intro hc heq
    have h := (hpass hc).2.1
    rw [heq, hc.1] at h
    exact Bool.noConfusion h
  · intro hr
    exact reachable_oneRequest s hr

/-- Witness for C5: the sample session after a message was typed. -/
theorem chatFormSubmit_guard_witness :
    (chatFormSubmit (typeInput "hey" sessionA)).messages
        = [userTurn "hi", modelTurn "hello", userTurn "hey"]
    ∧ (chatFormSubmit (typeInput "hey" sessionA)).loading = true
    ∧ chatFormSubmit (chatFormSubmit (typeInput "hey" sessionA))
        = chatFormSubmit (typeInput "hey" sessionA) := by
  have h := chatFormSubmit_guard (typeInput "hey" sessionA) (by decide)
  have h1 := h.1 ⟨by decide, by decide, ⟨mina, "A"⟩, by decide, by decide⟩
  refine ⟨h1.1, h1.2.1, ?_⟩
  exact (chatFormSubmit_guard (chatFormSubmit (typeInput "hey" sessionA)) (by decide)).2.1
    (by decide)

/-! ## What can happen to a stored log -/

theorem onlySaves_refl (c : Coll ChatDoc) : onlySaves c c := fun _ => Or.inl rfl

theorem onlySaves_trans (c1 c2 c3 : Coll ChatDoc) (h12 : onlySaves c1 c2)
    (h23 : onlySaves c2 c3) : onlySaves c1 c3 := by
  intro k
  rcases h23 k with h | h
  · rw [h]; exact h12 k
  · exact Or.inr h

theorem persistEffect_onlySaves (s : AppState) :
    onlySaves s.db.chats (persistEffect s).db.chats := by
  unfold persistEffect
  split
  · rename_i uid sel _ _
    by_cases h0 : s.messages.length = 0
    · rw [if_pos h0]; exact onlySaves_refl _
    · rw [if_neg h0]
      by_cases hp : s.prevSelectedId ≠ some sel
      · rw [if_pos hp]; exact onlySaves_refl _
      · rw [if_neg hp]
        intro k
        by_cases hk : k = (uid, sel)
        · right
          refine ⟨s.messages, fun hnil => h0 (by rw [hnil]; rfl), ?_⟩
          rw [hk]; exact Coll.get_set_same _ _ _
        · left
          exact Coll.get_set_ne _ _ _ _ hk
  · exact onlySaves_refl _

theorem commitMessages_onlySaves (s : AppState) (msgs : List Message) :
    onlySaves s.db.chats (commitMessages s msgs).db.chats :=
  persistEffect_onlySaves { s with messages := msgs }

theorem commitSelection_onlySaves (s : AppState) :
    onlySaves s.db.chats (commitSelection s).db.chats := by
  unfold commitSelection
  refine onlySaves_trans _ _ _ ?_ (commitMessages_onlySaves _ _)
  have h := persistEffect_onlySaves (loadEffect s)
  rwa [loadEffect_db] at h

theorem setSelectedId_onlySaves (v : Option CharId) (s : AppState) :
    onlySaves s.db.chats (setSelectedId v s).db.chats := by
  unfold setSelectedId
  split
  · exact onlySaves_refl _
  · exact commitSelection_onlySaves _

theorem authStateChanged_onlySaves (u : Option Uid) (s : AppState) :
    onlySaves s.db.chats (authStateChanged u s).db.chats := by
  unfold authStateChanged
  split
  · exact onlySaves_refl _
  · unfold commitUser
    dsimp only
    have h1 : onlySaves s.db.chats
        (persistEffect (loadEffect (charactersEffect { s with user := u }))).db.chats := by
      have h := persistEffect_onlySaves (loadEffect (charactersEffect { s with user := u }))
      rwa [loadEffect_db, charactersEffect_db] at h
    split
    · exact onlySaves_trans _ _ _ h1 (commitMessages_onlySaves _ _)
    · exact onlySaves_trans _ _ _ h1 (commitMessages_onlySaves _ _)

theorem fetchMessagesDone_onlySaves (i : Nat) (s : AppState) :
    onlySaves s.db.chats (fetchMessagesDone i s).db.chats := by
  unfold fetchMessagesDone
  split
  · exact onlySaves_refl _
  · dsimp only
    split
    · exact commitMessages_onlySaves _ _
    · exact commitMessages_onlySaves _ _

theorem sendMessage_onlySaves (s : AppState) :
    onlySaves s.db.chats (sendMessage s).db.chats := by
  cases hfind : s.characters.find? (fun c => decide (some c.id = s.selectedId)) with
  | none =>
    have : sendMessage s = s := by unfold sendMessage; simp [hfind]
    rw [this]; exact onlySaves_refl _
  | some c =>
    by_cases hin : jsTrim s.input = ""
    · have : sendMessage s = s := by unfold sendMessage; simp [hfind, hin]
      rw [this]; exact onlySaves_refl _
    · rw [sendMessage_pass s c hfind hin]
      exact commitMessages_onlySaves _ _

theorem completionSettles_onlySaves (i : Nat) (o : FetchOutcome) (s : AppState) :
    onlySaves s.db.chats (completionSettles i o s).db.chats := by
  unfold completionSettles
  split
  · exact onlySaves_refl _
  · exact commitMessages_onlySaves _ _

theorem handleSaveCharacter_onlySaves (charId : CharId) (s : AppState) :
    onlySaves s.db.chats (handleSaveCharacter charId s).db.chats := by
  unfold handleSaveCharacter
  split
  · split
    · exact onlySaves_refl _
    · exact setSelectedId_onlySaves _ _
  · exact onlySaves_refl _

/-- A stored log that is non-empty stays non-empty across saves of non-empty
logs. -/
theorem storedLog_ne_nil_of_onlySaves (s t : AppState)
    (h : onlySaves s.db.chats t.db.chats) (uid : Uid) (id : CharId)
    (hlog : storedLog s uid id ≠ []) : storedLog t uid id ≠ [] := by
  unfold storedLog at hlog ⊢
  rcases h (uid, id) with hk | ⟨l, hl, hk⟩
  · rw [hk]; exact hlog
  · rw [hk]; simpa using hl

/-- C6, as the code has it: every reaction of the component other than the
reset handler, `handleDeleteCharacter` and `handleEditCharacterSave` leaves
every non-empty stored conversation log non-empty, and the persistence effect
changes nothing unless a user is signed in, a character is selected and the
in-memory log is non-empty. -/
theorem stored_log_emptied_only_by_reset_delete_edit (s : AppState) (op : Op)
    (hreset : op ≠ Op.resetHistory)
    (hdelete : ∀ id, op ≠ Op.handleDeleteCharacter id)
    (hedit : op ≠ Op.handleEditCharacterSave) :
    (∀ uid id, storedLog s uid id ≠ [] → storedLog (step op s) uid id ≠ [])
    ∧ (s.user = none ∨ s.selectedId = none ∨ s.messages = [] → persistEffect s = s) := by
  constructor
  · intro uid id hlog
    refine storedLog_ne_nil_of_onlySaves s (step op s) ?_ uid id hlog
    cases op with
    | authStateChanged u => exact authStateChanged_onlySaves u s
    | fetchCharactersDone i =>
      show onlySaves s.db.chats (fetchCharactersDone i s).db.chats
      unfold fetchCharactersDone
      split <;> exact onlySaves_refl _
    | selectCharacter id => exact setSelectedId_onlySaves _ s
    | fetchMessagesDone i => exact fetchMessagesDone_onlySaves i s
    | typeInput text =>
      show onlySaves s.db.chats (typeInput text s).db.chats
      unfold typeInput
      split <;> exact onlySaves_refl _
    | submit =>
      show onlySaves s.db.chats (chatFormSubmit s).db.chats
      unfold chatFormSubmit
      split
      · exact sendMessage_onlySaves s
      · exact onlySaves_refl _
    | completionSettles i o => exact completionSettles_onlySaves i o s
    | resetHistory => exact absurd rfl hreset
    | handleDeleteCharacter id => exact absurd rfl (hdelete id)
    | handleSaveCharacter charId => exact handleSaveCharacter_onlySaves charId s
    | setNewCharacter c => exact onlySaves_refl _
    | startEdit id c => exact onlySaves_refl _
    | setEditCharacter c => exact onlySaves_refl _
    | cancelEdit => exact onlySaves_refl _
    | handleEditCharacterSave => exact absurd rfl hedit
  · intro h
    unfold persistEffect
    split
    · rename_i uid sel hu hsel
      rcases h with h | h | h
      · rw [hu] at h; exact Option.noConfusion h
      · rw [hsel] at h; exact Option.noConfusion h
      · simp [h]
    · rfl

/-- Witness for C6: selecting `B` in the sample session keeps the stored log
of `A`. -/
theorem stored_log_emptied_only_by_reset_delete_edit_witness :
    storedLog (step (Op.selectCharacter "B") sessionA) "u" "A" ≠ [] :=
  (stored_log_emptied_only_by_reset_delete_edit sessionA (Op.selectCharacter "B")
    (by decide) (fun id => by simp) (by decide)).1 "u" "A" (by decide)

/-- Counterexample to C6 as stated: in a reachable state where `A` has a
stored log of two messages, saving an edit of `A` (an operation other than
reset and deletion) leaves the stored log of `A` empty. -/
theorem editSave_empties_stored_log :
    Reachable (step (Op.startEdit "A" mina) sessionA)
    ∧ storedLog (step (Op.startEdit "A" mina) sessionA) "u" "A"
        = [userTurn "hi", modelTurn "hello"]
    ∧ storedLog
        (step Op.handleEditCharacterSave (step (Op.startEdit "A" mina) sessionA)) "u" "A"
        = [] := by
  refine ⟨?_, by decide, by decide⟩
  exact Reachable.next _ _ (reachable_run _ _ (Reachable.init sampleDb))

/-! ## Reset and deletion -/

theorem persistEffect_no_selection (s : AppState) (h : s.selectedId = none) :
    persistEffect s = s := by
  unfold persistEffect
  split
  · rename_i hsel
    rw [h] at hsel; exact Option.noConfusion hsel
  · rfl

theorem loadEffect_no_selection (s : AppState) (h : s.selectedId = none) :
    loadEffect s = s := by
  unfold loadEffect
  split
  · rename_i hsel
    rw [h] at hsel; exact Option.noConfusion hsel
  · rfl

theorem commitSelection_none (s : AppState) (h : s.selectedId = none) :
    commitSelection s = { s with messages := [] } := by
  unfold commitSelection commitMessages
  rw [loadEffect_no_selection s h, persistEffect_no_selection s h]
  exact persistEffect_no_selection _ h

/-- The reset handler as one update: its own write and the cleared log; the
persistence effect that follows returns at its first guard. -/
theorem resetHistory_eq (s : AppState) (uid : Uid) (sel : CharId)
    (hu : s.user = some uid) (hsel : s.selectedId = some sel) :
    resetHistory s =
      { s with
        db := { s.db with chats := s.db.chats.set (uid, sel) ⟨some []⟩ }
        messages := [] } := by
  unfold resetHistory
  simp only [hu, hsel, commitMessages]
  exact persistEffect_nil _ rfl

/-- C8: for every state with a signed-in user and a selected character,
whatever the visible log, the stored logs and `prevSelectedId` are, the reset
handler leaves the stored log of the selected character empty and the visible
log empty, leaves the document of every other key as it was, writes nothing
but its own empty log, and the persistence effect that runs afterwards changes
nothing. -/
theorem resetHistory_postcondition (s : AppState) (uid : Uid) (sel : CharId)
    (hu : s.user = some uid) (hsel : s.selectedId = some sel) :
    storedLog (resetHistory s) uid sel = []
    ∧ (resetHistory s).db.chats.get (uid, sel) = some ⟨some []⟩
    ∧ (resetHistory s).messages = []
    ∧ (∀ k, k ≠ (uid, sel) → (resetHistory s).db.chats.get k = s.db.chats.get k)
    ∧ (resetHistory s).db.chats = s.db.chats.set (uid, sel) ⟨some []⟩
    ∧ (resetHistory s).prevSelectedId = s.prevSelectedId
    ∧ persistEffect (resetHistory s) = resetHistory s := by
  have heq := resetHistory_eq s uid sel hu hsel
  have hget : (resetHistory s).db.chats.get (uid, sel) = some ⟨some []⟩ := by
    rw [heq]; exact Coll.get_set_same _ _ _
  refine ⟨?_, hget, ?_, ?_, ?_, ?_, ?_⟩
  · unfold storedLog; rw [hget]; rfl
  · rw [heq]
  · intro k hk
    rw [heq]; exact Coll.get_set_ne _ _ _ _ hk
  · rw [heq]
  · rw [heq]
  · apply persistEffect_nil
    rw [heq]

/-- Witness for C8: a reset in the sample session, where `A` has two stored
messages and `prevSelectedId` is `A`. -/
theorem resetHistory_postcondition_witness :
    sessionA.prevSelectedId = some "A"
    ∧ storedLog sessionA "u" "A" = [userTurn "hi", modelTurn "hello"]
    ∧ storedLog (resetHistory sessionA) "u" "A" = []
    ∧ (resetHistory sessionA).messages = [] := by
  have h := resetHistory_postcondition sessionA "u" "A" (by decide) (by decide)
  exact ⟨by decide, by decide, h.1, h.2.2.1⟩

/-- C9: for a signed-in user, a confirmed `handleDeleteCharacter(id)` removes
the character document and the chat document stored under `id` and removes
the character from the in-memory list; when `id` was selected the selection
becomes `null` and the visible log becomes empty; when it was not, the
selection and the visible log stay; and the documents under every other key
stay as they were. -/
theorem handleDeleteCharacter_cascade (s : AppState) (uid : Uid) (id : CharId)
    (hu : s.user = some uid) :
    (handleDeleteCharacter id s).db.characters.get (uid, id) = none
    ∧ (handleDeleteCharacter id s).db.chats.get (uid, id) = none
    ∧ (handleDeleteCharacter id s).characters
        = s.characters.filter (fun c => decide (c.id ≠ id))
    ∧ (∀ c ∈ (handleDeleteCharacter id s).characters, c.id ≠ id)
    ∧ (s.selectedId = some id →
        (handleDeleteCharacter id s).selectedId = none
        ∧ (handleDeleteCharacter id s).messages = [])
    ∧ (s.selectedId ≠ some id →
        (handleDeleteCharacter id s).selectedId = s.selectedId
        ∧ (handleDeleteCharacter id s).messages = s.messages)
    ∧ (∀ k, k ≠ (uid, id) →
        (handleDeleteCharacter id s).db.characters.get k = s.db.characters.get k
        ∧ (handleDeleteCharacter id s).db.chats.get k = s.db.chats.get k) := by
  by_cases hsel : s.selectedId = some id
  · have heq : handleDeleteCharacter id s =
        { s with
          db :=
            { characters := s.db.characters.delete (uid, id)
              chats := s.db.chats.delete (uid, id) }
          characters := s.characters.filter (fun c => decide (c.id ≠ id))
          editingId := if s.editingId = some id then none else s.editingId
          selectedId := none
          messages := [] } := by
      unfold handleDeleteCharacter
      simp only [hu, hsel, if_true]
      unfold setSelectedId
      rw [if_neg (by simp)]
      exact commitSelection_none _ rfl
    rw [heq]
    refine ⟨Coll.get_delete_same _ _, Coll.get_delete_same _ _, rfl, ?_, ?_, ?_, ?_⟩
    · intro c hc
      simpa using (List.mem_filter.mp hc).2
    · intro _; exact ⟨rfl, rfl⟩
    · intro h; exact absurd hsel h
    · intro k hk
      exact ⟨Coll.get_delete_ne _ _ _ hk, Coll.get_delete_ne _ _ _ hk⟩
  · have heq : handleDeleteCharacter id s =
        { s with
          db :=
            { characters := s.db.characters.delete (uid, id)
              chats := s.db.chats.delete (uid, id) }
          characters := s.characters.filter (fun c => decide (c.id ≠ id))
          editingId := if s.editingId = some id then none else s.editingId } := by
      unfold handleDeleteCharacter
      simp only [hu, hsel, if_false]
    rw [heq]
    refine ⟨Coll.get_delete_same _ _, Coll.get_delete_same _ _, rfl, ?_, ?_, ?_, ?_⟩
    · intro c hc
      simpa using (List.mem_filter.mp hc).2
    · intro h; exact absurd h hsel
    · intro _; exact ⟨rfl, rfl⟩
    · intro k hk
      exact ⟨Coll.get_delete_ne _ _ _ hk, Coll.get_delete_ne _ _ _ hk⟩

/-- Witness for C9: deleting the selected character `A` of the sample session,
and deleting `B` while `A` is selected. -/
theorem handleDeleteCharacter_cascade_witness :
    ((handleDeleteCharacter "A" sessionA).db.chats.get ("u", "A") = none
      ∧ (handleDeleteCharacter "A" sessionA).selectedId = none
      ∧ (handleDeleteCharacter "A" sessionA).messages = [])
    ∧ ((handleDeleteCharacter "B" sessionA).selectedId = some "A"
      ∧ (handleDeleteCharacter "B" sessionA).messages
          = [userTurn "hi", modelTurn "hello"]) := by
  have hA := handleDeleteCharacter_cascade sessionA "u" "A" (by decide)
  have hB := handleDeleteCharacter_cascade sessionA "u" "B" (by decide)
  exact ⟨⟨hA.2.1, hA.2.2.2.2.1 (by decide)⟩, hB.2.2.2.2.2.1 (by decide)⟩

/-! ## The persistence effect with a user and a selection -/

theorem persistEffect_selected (s : AppState) (uid : Uid) (sel : CharId)
    (hu : s.user = some uid) (hsel : s.selectedId = some sel) :
    persistEffect s =
      if s.messages.length = 0 then s
      else if s.prevSelectedId ≠ some sel then { s with prevSelectedId := some sel }
      else { s with db := { s.db with chats := s.db.chats.set (uid, sel) ⟨some s.messages⟩ } } := by
  unfold persistEffect
  simp only [hu, hsel]

/-- A send followed by the settling of its request, for a user in `Ready`:
the user turn and the reply are appended, and the log that ends with the reply
is saved under the selected character. -/
theorem send_then_settle (s : AppState) (uid : Uid) (c : Character) (o : FetchOutcome)
    (hu : s.user = some uid)
    (hfind : s.characters.find? (fun c => decide (some c.id = s.selectedId)) = some c)
    (hin : jsTrim s.input ≠ "") (hl : s.loading = false) (hflight : s.inFlight = []) :
    (chatFormSubmit s).messages = s.messages ++ [userTurn s.input]
    ∧ (chatFormSubmit s).inFlight
        = [⟨[systemPromptMsg c] ++ s.messages ++ [userTurn s.input],
            s.messages ++ [userTurn s.input]⟩]
    ∧ (completionSettles 0 o (chatFormSubmit s)).messages
        = s.messages ++ [userTurn s.input] ++ [modelTurn (replyText o)]
    ∧ (completionSettles 0 o (chatFormSubmit s)).db.chats.get (uid, c.id)
        = some ⟨some (s.messages ++ [userTurn s.input] ++ [modelTurn (replyText o)])⟩
    ∧ (completionSettles 0 o (chatFormSubmit s)).loading = false
    ∧ (completionSettles 0 o (chatFormSubmit s)).inFlight = [] := by
  have hid : s.selectedId = some c.id := (find?_selected_some s c hfind).2.symm
  have hen : chatFormEnabled s = true := by
    simp [chatFormEnabled, hu, hid, hl]
  have hsub : chatFormSubmit s =
      commitMessages
        { s with
          loading := true
          inFlight := s.inFlight ++
            [⟨[systemPromptMsg c] ++ s.messages ++ [userTurn s.input],
              s.messages ++ [userTurn s.input]⟩] }
        (s.messages ++ [userTurn s.input]) := by
    unfold chatFormSubmit
    rw [if_pos hen, sendMessage_pass s c hfind hin]
  have hprev : (chatFormSubmit s).prevSelectedId = some c.id := by
    rw [hsub]
    unfold commitMessages
    rw [persistEffect_selected _ uid c.id]
    · by_cases hp : s.prevSelectedId = some c.id <;> simp [hp]
    · exact hu
    · exact hid
  have hflight2 : (chatFormSubmit s).inFlight
      = [⟨[systemPromptMsg c] ++ s.messages ++ [userTurn s.input],
          s.messages ++ [userTurn s.input]⟩] := by
    rw [hsub]; simp [commitMessages, hflight]
  have huser2 : (chatFormSubmit s).user = some uid := by
    rw [hsub]; simp [commitMessages, hu]
  have hsel2 : (chatFormSubmit s).selectedId = some c.id := by
    rw [hsub]; simp [commitMessages, hid]
  refine ⟨by rw [hsub]; simp [commitMessages], hflight2, ?_, ?_, ?_, ?_⟩
  · unfold completionSettles
    simp [hflight2, commitMessages]
  · unfold completionSettles
    simp only [hflight2, List.get?, commitMessages]
    rw [persistEffect_selected _ uid c.id]
    · simp [hprev, Coll.get_set_same]
    · exact huser2
    · exact hsel2
  · unfold completionSettles
    simp [hflight2]
  · unfold completionSettles
    simp [hflight2, commitMessages]

/-! ## First turn -/

/-- C2, as the code has it: for a signed-in user in `Ready` whose selected
character is in the list and whose visible log is empty, and an input with a
non-empty trim, after the submit and a response whose body parses, the visible
log is exactly the user turn followed by the model turn carrying the extracted
reply, and that two-message log is what is stored under the selected
character; the reply is the text of the first part of the first candidate
whenever that text is non-empty; the persona turn went out at the head of the
request, and it is no element of the visible or the stored log whenever the
input differs from the text `buildSystemPrompt` gives for the selected
character. -/
theorem first_turn_persisted (s : AppState) (uid : Uid) (c : Character)
    (data : ResponseData) (hu : s.user = some uid)
    (hfind : s.characters.find? (fun c => decide (some c.id = s.selectedId)) = some c)
    (hlog : s.messages = []) (hin : jsTrim s.input ≠ "") (hl : s.loading = false)
    (hflight : s.inFlight = []) :
    (completionSettles 0 (FetchOutcome.json (some data)) (chatFormSubmit s)).messages
        = [userTurn s.input, modelTurn (extractReply data)]
    ∧ storedLog (completionSettles 0 (FetchOutcome.json (some data)) (chatFormSubmit s))
          uid c.id
        = [userTurn s.input, modelTurn (extractReply data)]
    ∧ (∀ r, partsText data = some r → r ≠ "" → extractReply data = r)
    ∧ (chatFormSubmit s).inFlight
        = [⟨[systemPromptMsg c, userTurn s.input], [userTurn s.input]⟩]
    ∧ (s.input ≠ buildSystemPrompt c →
        systemPromptMsg c ∉
          (completionSettles 0 (FetchOutcome.json (some data)) (chatFormSubmit s)).messages
        ∧ systemPromptMsg c ∉
          storedLog (completionSettles 0 (FetchOutcome.json (some data)) (chatFormSubmit s))
            uid c.id) := by
  have h := send_then_settle s uid c (FetchOutcome.json (some data)) hu hfind hin hl hflight
  rw [hlog] at h
  have hmsgs : (completionSettles 0 (FetchOutcome.json (some data)) (chatFormSubmit s)).messages
      = [userTurn s.input, modelTurn (extractReply data)] := by
    rw [h.2.2.1]; rfl
  have hstored :
      storedLog (completionSettles 0 (FetchOutcome.json (some data)) (chatFormSubmit s))
          uid c.id
        = [userTurn s.input, modelTurn (extractReply data)] := by
    unfold storedLog
    rw [h.2.2.2.1]; rfl
  refine ⟨hmsgs, hstored, ?_, ?_, ?_⟩
  · intro r hr hne
    simp [extractReply, hr, jsOr, hne]
  · rw [h.2.1]; rfl
  · intro hne
    have hnot : systemPromptMsg c ∉ [userTurn s.input, modelTurn (extractReply data)] := by
      intro hmem
      simp [systemPromptMsg, userTurn, modelTurn] at hmem
      exact hne hmem.symm
    rw [hmsgs, hstored]
    exact ⟨hnot, hnot⟩

/-- Witness for C2: the first message to `B`, whose log is empty; the input
`"hi"` is not the persona prompt of `B`, so the persona turn is in neither
log. -/
theorem first_turn_persisted_witness :
    (completionSettles 0 (FetchOutcome.json (some (replyWith "yo")))
        (chatFormSubmit (typeInput "hi" sessionB))).messages
      = [userTurn "hi", modelTurn "yo"]
    ∧ storedLog (completionSettles 0 (FetchOutcome.json (some (replyWith "yo")))
        (chatFormSubmit (typeInput "hi" sessionB))) "u" "B"
      = [userTurn "hi", modelTurn "yo"]
    ∧ systemPromptMsg ⟨theo, "B"⟩ ∉
        (completionSettles 0 (FetchOutcome.json (some (replyWith "yo")))
          (chatFormSubmit (typeInput "hi" sessionB))).messages
    ∧ systemPromptMsg ⟨theo, "B"⟩ ∉
        storedLog (completionSettles 0 (FetchOutcome.json (some (replyWith "yo")))
          (chatFormSubmit (typeInput "hi" sessionB))) "u" "B" := by
  have h := first_turn_persisted (typeInput "hi" sessionB) "u" ⟨theo, "B"⟩ (replyWith "yo")
    (by decide) (by decide) (by decide) (by decide) (by decide) (by decide)
  have hp := h.2.2.2.2 (by decide)
  exact ⟨h.1, h.2.1, hp.1, hp.2⟩

/-- Counterexample to C2 as stated: in the sample session with `B` selected
and its log empty, the user types the very text that `buildSystemPrompt` gives
for `B` (its trim is non-empty) and the endpoint answers `"yo"`; the user turn
then equals the persona turn, which is the first element of the visible log
and of the log stored under `B`. -/
theorem persona_text_as_input_is_logged :
    sessionB.messages = []
    ∧ jsTrim (typeInput (buildSystemPrompt ⟨theo, "B"⟩) sessionB).input ≠ ""
    ∧ (completionSettles 0 (FetchOutcome.json (some (replyWith "yo")))
        (chatFormSubmit (typeInput (buildSystemPrompt ⟨theo, "B"⟩) sessionB))).messages
      = [systemPromptMsg ⟨theo, "B"⟩, modelTurn "yo"]
    ∧ storedLog (completionSettles 0 (FetchOutcome.json (some (replyWith "yo")))
        (chatFormSubmit (typeInput (buildSystemPrompt ⟨theo, "B"⟩) sessionB))) "u" "B"
      = [systemPromptMsg ⟨theo, "B"⟩, modelTurn "yo"]
    ∧ systemPromptMsg ⟨theo, "B"⟩ ∈
        (completionSettles 0 (FetchOutcome.json (some (replyWith "yo")))
          (chatFormSubmit (typeInput (buildSystemPrompt ⟨theo, "B"⟩) sessionB))).messages
    ∧ systemPromptMsg ⟨theo, "B"⟩ ∈
        storedLog (completionSettles 0 (FetchOutcome.json (some (replyWith "yo")))
          (chatFormSubmit (typeInput (buildSystemPrompt ⟨theo, "B"⟩) sessionB))) "u" "B" := by
  have h := send_then_settle (typeInput (buildSystemPrompt ⟨theo, "B"⟩) sessionB) "u"
    ⟨theo, "B"⟩ (FetchOutcome.json (some (replyWith "yo")))
    (by decide) (by decide) (by decide) (by decide) (by decide)
  have hmsgs :
      (completionSettles 0 (FetchOutcome.json (some (replyWith "yo")))
        (chatFormSubmit (typeInput (buildSystemPrompt ⟨theo, "B"⟩) sessionB))).messages
      = [systemPromptMsg ⟨theo, "B"⟩, modelTurn "yo"] := by
    rw [h.2.2.1]; rfl
  have hstored :
      storedLog (completionSettles 0 (FetchOutcome.json (some (replyWith "yo")))
        (chatFormSubmit (typeInput (buildSystemPrompt ⟨theo, "B"⟩) sessionB))) "u" "B"
      = [systemPromptMsg ⟨theo, "B"⟩, modelTurn "yo"] := by
    unfold storedLog
    rw [h.2.2.2.1]; rfl
  refine ⟨by decide, by decide, hmsgs, hstored, ?_, ?_⟩
  · rw [hmsgs]; exact List.mem_cons_self _ _
  · rw [hstored]; exact List.mem_cons_self _ _

/-! ## Failed completions -/

theorem jsOr_of_textMissing (x : Option String) (d : String) (h : textMissing x) :
    jsOr x d = d := by
  rcases h with h | h <;> simp [jsOr, h]

theorem noCandidateText_of_no_candidates (data : ResponseData)
    (h : data.candidates = none ∨ data.candidates = some []) : noCandidateText data := by
  rcases h with h | h <;>
    simp [noCandidateText, textMissing, partsText, contentText, firstContent, h]

/-- C3, as the code has it: after a submit from `Ready`, for every way the
completion call can fail, the continuation appends exactly one model-role
message to the visible log and lowers the loading flag with no request left in
flight; the text of that message is the literal of the `catch` block when the
fetch rejects, the body is not JSON or the body is `null`, and the literal that
ends the `||` chain when the response has no candidates, an empty candidate
list, or a first candidate without text. -/
theorem completion_failure_fallback (s : AppState) (uid : Uid) (c : Character)
    (o : FetchOutcome) (hu : s.user = some uid)
    (hfind : s.characters.find? (fun c => decide (some c.id = s.selectedId)) = some c)
    (hin : jsTrim s.input ≠ "") (hl : s.loading = false) (hflight : s.inFlight = [])
    (hfail : o = FetchOutcome.rejected ∨ o = FetchOutcome.invalidJson
      ∨ o = FetchOutcome.json none
      ∨ ∃ data, o = FetchOutcome.json (some data) ∧ noCandidateText data) :
    (completionSettles 0 o (chatFormSubmit s)).messages
        = (chatFormSubmit s).messages ++ [modelTurn (replyText o)]
    ∧ (completionSettles 0 o (chatFormSubmit s)).loading = false
    ∧ (completionSettles 0 o (chatFormSubmit s)).inFlight = []
    ∧ (o = FetchOutcome.rejected ∨ o = FetchOutcome.invalidJson
        ∨ o = FetchOutcome.json none →
        replyText o = "죄송합니다. 오류가 발생했습니다.")
    ∧ (∀ data, o = FetchOutcome.json (some data) → replyText o = "AI 응답 오류!")
    ∧ (∀ data : ResponseData, data.candidates = none ∨ data.candidates = some [] →
        noCandidateText data) := by
  have h := send_then_settle s uid c o hu hfind hin hl hflight
  refine ⟨?_, h.2.2.2.2.1, h.2.2.2.2.2, ?_, ?_, noCandidateText_of_no_candidates⟩
  · rw [h.2.2.1, h.1]
  · intro ho
    rcases ho with ho | ho | ho <;> rw [ho] <;> rfl
  · intro data ho
    rcases hfail with hf | hf | hf | ⟨d, hd, hno⟩
    · rw [hf] at ho; exact FetchOutcome.noConfusion ho
    · rw [hf] at ho; exact FetchOutcome.noConfusion ho
    · rw [hf] at ho; simp at ho
    · rw [hd]
      simp only [replyText, extractReply]
      rw [jsOr_of_textMissing _ _ hno.1, jsOr_of_textMissing _ _ hno.2]

/-- Witness for C3: a response whose first candidate has empty parts, after a
message typed into the sample session. -/
theorem completion_failure_fallback_witness :
    (completionSettles 0 (FetchOutcome.json (some ⟨some [⟨some ⟨some [], none⟩⟩]⟩))
        (chatFormSubmit (typeInput "hey" sessionA))).messages
      = [userTurn "hi", modelTurn "hello", userTurn "hey", modelTurn "AI 응답 오류!"]
    ∧ (completionSettles 0 (FetchOutcome.json (some ⟨some [⟨some ⟨some [], none⟩⟩]⟩))
        (chatFormSubmit (typeInput "hey" sessionA))).loading = false := by
  have h := completion_failure_fallback (typeInput "hey" sessionA) "u" ⟨mina, "A"⟩
    (FetchOutcome.json (some ⟨some [⟨some ⟨some [], none⟩⟩]⟩))
    (by decide) (by decide) (by decide) (by decide) (by decide)
    (Or.inr (Or.inr (Or.inr ⟨_, rfl, Or.inl rfl, Or.inl rfl⟩)))
  exact ⟨h.1, h.2.1⟩

/-- Counterexample to C3 as stated: a rejected fetch and a response with an
empty candidate list, both failures of the completion call, append model
turns with two different texts. -/
theorem fallback_texts_differ :
    (completionSettles 0 FetchOutcome.rejected
        (chatFormSubmit (typeInput "hey" sessionA))).messages
      = [userTurn "hi", modelTurn "hello", userTurn "hey",
          modelTurn "죄송합니다. 오류가 발생했습니다."]
    ∧ (completionSettles 0 (FetchOutcome.json (some ⟨some []⟩))
        (chatFormSubmit (typeInput "hey" sessionA))).messages
      = [userTurn "hi", modelTurn "hello", userTurn "hey", modelTurn "AI 응답 오류!"]
    ∧ replyText FetchOutcome.rejected ≠ replyText (FetchOutcome.json (some ⟨some []⟩)) := by
  refine ⟨by decide, by decide, by decide⟩

/-! ## Switching characters -/

theorem storedLog_congr (s t : AppState) (uid : Uid) (id : CharId)
    (h : t.db.chats.get (uid, id) = s.db.chats.get (uid, id)) :
    storedLog t uid id = storedLog s uid id := by
  unfold storedLog; rw [h]

/-- A non-empty stored log is the `messages` field of an existing document. -/
theorem get_of_storedLog_ne_nil (s : AppState) (uid : Uid) (x : CharId)
    (h : storedLog s uid x ≠ []) :
    s.db.chats.get (uid, x) = some ⟨some (storedLog s uid x)⟩ := by
  unfold storedLog at h ⊢
  cases hdoc : s.db.chats.get (uid, x) with
  | none => simp [hdoc] at h
  | some docSnap =>
    obtain ⟨m⟩ := docSnap
    cases m with
    | none => simp [hdoc] at h
    | some l => simp

/-- A change of selection for a signed-in user: the log is cleared, one load
is issued, and the only document the persistence effect of that render can
write is the one of the newly selected character, and only when the previous
log was non-empty and `prevSelectedId` already named that character. -/
theorem setSelectedId_switch (s : AppState) (uid : Uid) (x : CharId)
    (hu : s.user = some uid) (hne : s.selectedId ≠ some x) :
    (setSelectedId (some x) s).user = some uid
    ∧ (setSelectedId (some x) s).selectedId = some x
    ∧ (setSelectedId (some x) s).messages = []
    ∧ (setSelectedId (some x) s).pendingLoads = s.pendingLoads ++ [(uid, x)]
    ∧ (∀ k, k ≠ (uid, x) →
        (setSelectedId (some x) s).db.chats.get k = s.db.chats.get k)
    ∧ (s.messages = [] ∨ s.prevSelectedId ≠ some x →
        (setSelectedId (some x) s).db = s.db) := by
  have hload : loadEffect { s with selectedId := some x }
      = { s with selectedId := some x, pendingLoads := s.pendingLoads ++ [(uid, x)] } := by
    unfold loadEffect
    simp only [hu]
  have hpe := persistEffect_selected
    { s with selectedId := some x, pendingLoads := s.pendingLoads ++ [(uid, x)] } uid x hu rfl
  have heq : setSelectedId (some x) s
      = commitMessages
          (persistEffect
            { s with selectedId := some x, pendingLoads := s.pendingLoads ++ [(uid, x)] }) [] := by
    unfold setSelectedId
    rw [if_neg hne]
    unfold commitSelection
    rw [hload]
  dsimp only at hpe
  rw [heq, commitMessages_nil, hpe]
  by_cases h0 : s.messages.length = 0
  · rw [if_pos h0]
    exact ⟨hu, rfl, rfl, rfl, fun _ _ => rfl, fun _ => rfl⟩
  · have hnil : s.messages ≠ [] := fun h => h0 (by rw [h]; rfl)
    by_cases hp : s.prevSelectedId = some x
    · rw [if_neg h0, if_neg (not_not.mpr hp)]
      refine ⟨hu, rfl, rfl, rfl, ?_, ?_⟩
      · intro k hk
        exact Coll.get_set_ne _ _ _ _ hk
      · intro h
        rcases h with h | h
        · exact absurd h hnil
        · exact absurd hp h
    · rw [if_neg h0, if_pos hp]
      exact ⟨hu, rfl, rfl, rfl, fun _ _ => rfl, fun _ => rfl⟩

/-- The settling of the load of the selected character, when it is the only
pending one: the visible log becomes the stored log, every document reads as
before (a save, if the effect issues one, writes back the log just read), and
`prevSelectedId` names the selected character once the log is non-empty. -/
theorem fetchMessagesDone_selected (s : AppState) (uid : Uid) (x : CharId)
    (hu : s.user = some uid) (hsel : s.selectedId = some x)
    (hp : s.pendingLoads = [(uid, x)]) :
    (fetchMessagesDone 0 s).user = some uid
    ∧ (fetchMessagesDone 0 s).selectedId = some x
    ∧ (fetchMessagesDone 0 s).messages = storedLog s uid x
    ∧ (fetchMessagesDone 0 s).pendingLoads = []
    ∧ (∀ k, (fetchMessagesDone 0 s).db.chats.get k = s.db.chats.get k)
    ∧ ((fetchMessagesDone 0 s).messages ≠ [] →
        (fetchMessagesDone 0 s).prevSelectedId = some x) := by
  have heq : fetchMessagesDone 0 s
      = persistEffect { s with pendingLoads := [], messages := storedLog s uid x } := by
    unfold fetchMessagesDone storedLog
    simp only [hp, List.get?, List.eraseIdx]
    cases s.db.chats.get (uid, x) <;> rfl
  have hpe := persistEffect_selected
    { s with pendingLoads := [], messages := storedLog s uid x } uid x hu hsel
  dsimp only at hpe
  rw [heq, hpe]
  by_cases h0 : (storedLog s uid x).length = 0
  · have hnil : storedLog s uid x = [] := List.length_eq_zero.mp h0
    rw [if_pos h0]
    exact ⟨hu, hsel, rfl, rfl, fun _ => rfl, fun h => absurd hnil h⟩
  · have hnil : storedLog s uid x ≠ [] := fun h => h0 (by rw [h]; rfl)
    by_cases hprev : s.prevSelectedId = some x
    · rw [if_neg h0, if_neg (not_not.mpr hprev)]
      refine ⟨hu, hsel, rfl, rfl, ?_, fun _ => hprev⟩
      intro k
      by_cases hk : k = (uid, x)
      · rw [hk, get_of_storedLog_ne_nil s uid x hnil]
        exact Coll.get_set_same _ _ _
      · exact Coll.get_set_ne _ _ _ _ hk
    · rw [if_neg h0, if_pos hprev]
      exact ⟨hu, hsel, rfl, rfl, fun _ => rfl, fun _ => rfl⟩

/-- C1: for a signed-in user, distinct characters `a` and `b`, and a state in
which `a` is selected, its stored log is the visible log and no load is
pending, the sequence select `b`, load of `b` settles, select `a`, load of `a`
settles leaves the document stored for `a` as it was after each of the four
steps (whatever the stored log of `b` is, absent or empty included, and
whatever `prevSelectedId` is), and ends with `a` selected and its log
visible. -/
theorem switch_round_trip (s : AppState) (uid : Uid) (a b : CharId) (hab : a ≠ b)
    (hu : s.user = some uid) (hsel : s.selectedId = some a)
    (hlog : s.messages = storedLog s uid a) (hpend : s.pendingLoads = []) :
    (selectCharacter b s).db.chats.get (uid, a) = s.db.chats.get (uid, a)
    ∧ (fetchMessagesDone 0 (selectCharacter b s)).db.chats.get (uid, a)
        = s.db.chats.get (uid, a)
    ∧ (selectCharacter a (fetchMessagesDone 0 (selectCharacter b s))).db.chats.get (uid, a)
        = s.db.chats.get (uid, a)
    ∧ (fetchMessagesDone 0
        (selectCharacter a (fetchMessagesDone 0 (selectCharacter b s)))).db.chats.get (uid, a)
        = s.db.chats.get (uid, a)
    ∧ storedLog
        (fetchMessagesDone 0
          (selectCharacter a (fetchMessagesDone 0 (selectCharacter b s)))) uid a
        = storedLog s uid a
    ∧ (fetchMessagesDone 0
        (selectCharacter a (fetchMessagesDone 0 (selectCharacter b s)))).messages
        = s.messages
    ∧ (fetchMessagesDone 0
        (selectCharacter a (fetchMessagesDone 0 (selectCharacter b s)))).selectedId
        = some a := by
  have hkey : (uid, a) ≠ (uid, b) := fun h => hab (Prod.mk.inj h).2
  have hneb : s.selectedId ≠ some b := by
    rw [hsel]; exact fun h => hab (Option.some.inj h)
  -- select `b`
  have h1 := setSelectedId_switch s uid b hu hneb
  rw [hpend] at h1
  have g1 : (selectCharacter b s).db.chats.get (uid, a) = s.db.chats.get (uid, a) :=
    h1.2.2.2.2.1 _ hkey
  -- the load of `b` settles
  have h2 := fetchMessagesDone_selected (selectCharacter b s) uid b h1.1 h1.2.1 h1.2.2.2.1
  have g2 : (fetchMessagesDone 0 (selectCharacter b s)).db.chats.get (uid, a)
      = s.db.chats.get (uid, a) := by
    rw [h2.2.2.2.2.1]; exact g1
  -- select `a`
  have hnea : (fetchMessagesDone 0 (selectCharacter b s)).selectedId ≠ some a := by
    rw [h2.2.1]; exact fun h => hab (Option.some.inj h).symm
  have h3 := setSelectedId_switch (fetchMessagesDone 0 (selectCharacter b s)) uid a h2.1 hnea
  rw [h2.2.2.2.1] at h3
  have hdb3 : (selectCharacter a (fetchMessagesDone 0 (selectCharacter b s))).db
      = (fetchMessagesDone 0 (selectCharacter b s)).db := by
    apply h3.2.2.2.2.2
    by_cases hm : (fetchMessagesDone 0 (selectCharacter b s)).messages = []
    · exact Or.inl hm
    · right
      rw [h2.2.2.2.2.2 hm]
      exact fun h => hab (Option.some.inj h).symm
  have g3 : (selectCharacter a (fetchMessagesDone 0 (selectCharacter b s))).db.chats.get
      (uid, a) = s.db.chats.get (uid, a) := by
    rw [hdb3]; exact g2
  -- the load of `a` settles
  have h4 := fetchMessagesDone_selected
    (selectCharacter a (fetchMessagesDone 0 (selectCharacter b s))) uid a
    h3.1 h3.2.1 h3.2.2.2.1
  have g4 : (fetchMessagesDone 0
      (selectCharacter a (fetchMessagesDone 0 (selectCharacter b s)))).db.chats.get (uid, a)
      = s.db.chats.get (uid, a) := by
    rw [h4.2.2.2.2.1]; exact g3
  refine ⟨g1, g2, g3, g4, storedLog_congr _ _ _ _ g4, ?_, h4.2.1⟩
  rw [h4.2.2.1, hlog]
  exact storedLog_congr _ _ _ _ g3

/-- Witness for C1: from the sample session, where `A` has two stored messages
and `B` has no stored log, to `B` and back. -/
theorem switch_round_trip_witness :
    storedLog sessionA "u" "A" = [userTurn "hi", modelTurn "hello"]
    ∧ storedLog
        (fetchMessagesDone 0
          (selectCharacter "A" (fetchMessagesDone 0 (selectCharacter "B" sessionA))))
        "u" "A"
      = storedLog sessionA "u" "A" :=
  ⟨by decide,
    (switch_round_trip sessionA "u" "A" "B" (by decide) (by decide) (by decide)
      (by decide) (by decide)).2.2.2.2.1⟩

/-! ## A reply that arrives after a switch -/

/-- C7 fails on the code: in the reachable state `staleReply` character `B` is
selected, the visible log is the conversation with `A` followed by the reply,
that log is what is stored under `B` (whose stored log was empty), and the
log stored under `A` ends with the user turn, without the reply. -/
theorem stale_reply_lands_on_other_character :
    Reachable staleReply
    ∧ storedLog sessionA "u" "B" = []
    ∧ staleReply.selectedId = some "B"
    ∧ staleReply.messages
        = [userTurn "hi", modelTurn "hello", userTurn "hey", modelTurn "yo"]
    ∧ storedLog staleReply "u" "B"
        = [userTurn "hi", modelTurn "hello", userTurn "hey", modelTurn "yo"]
    ∧ storedLog staleReply "u" "A"
        = [userTurn "hi", modelTurn "hello", userTurn "hey"] := by
  refine ⟨?_, by decide, by decide, by decide, by decide, by decide⟩
  exact reachable_run _ _ (reachable_run _ _ (Reachable.init sampleDb))

end MyChat
